import Mathlib

/-!
Verification of the selection-geometry and crop-export core of
`image_cropper.py` (class `ImageCropper`).

Canvas and image coordinates are embedded as rationals `ℚ` (the Python
code computes with floats produced by exact integer inputs and a single
division; `ℚ` models that arithmetic exactly).  Python `int(...)` applied
to a real value truncates toward zero, which is modelled by `truncQ`
below.  Python `a // b` on integers is floor division, modelled by
`Int.fdiv`.
-/

namespace ImageCropper

/-- Truncation toward zero on rationals: models Python `int(x)` applied to
a float. Equals `⌊x⌋` for `x ≥ 0` and `⌈x⌉` for `x < 0`. -/
def truncQ (q : ℚ) : ℤ := if 0 ≤ q then ⌊q⌋ else ⌈q⌉

/-- Python substring membership `c in s` for a single-character needle,
as used on the drag-mode strings by `_on_mouse_drag` (`'w' in h`, ...). -/
def pyIn (c : Char) (s : String) : Bool := s.data.contains c

/-- A selection rectangle in canvas space, the quadruple
`(sel_x0, sel_y0, sel_x1, sel_y1)` of the source. -/
structure SelRect where
  x0 : ℚ
  y0 : ℚ
  x1 : ℚ
  y1 : ℚ
deriving DecidableEq, Repr

/-- Model of `_norm_sel` (source lines 685-687): the normalized corners
`(min x, min y, max x, max y)`, returned here with `x0 y0 x1 y1` playing
the roles of `lx ty rx by`. -/
def norm_sel (r : SelRect) : SelRect :=
  ⟨min r.x0 r.x1, min r.y0 r.y1, max r.x0 r.x1, max r.y0 r.y1⟩

/-- The viewport placement computed by `_render_image` (lines 649-657):
`scale = min(cw/img_w, ch/img_h)`, `new_w = int(img_w*scale)`,
`new_h = int(img_h*scale)`, `offset = ((cw-new_w)//2, (ch-new_h)//2)`. -/
structure Fit where
  scale : ℚ
  offset_x : ℤ
  offset_y : ℤ
deriving DecidableEq, Repr

/-- Model of the transform computation in `_render_image` (lines 649-657).
The `winfo_width() or 800` default substitution happens at the call site;
here the canvas size is taken as an input. -/
def render_fit (imgW imgH cw ch : ℕ) : Fit :=
  let scale : ℚ := min ((cw : ℚ) / (imgW : ℚ)) ((ch : ℚ) / (imgH : ℚ))
  let new_w : ℤ := truncQ ((imgW : ℚ) * scale)
  let new_h : ℤ := truncQ ((imgH : ℚ) * scale)
  { scale := scale
    offset_x := ((cw : ℤ) - new_w).fdiv 2
    offset_y := ((ch : ℤ) - new_h).fdiv 2 }

/-- Model of `_canvas_to_image` (lines 840-841):
`((cx - offset_x)/scale, (cy - offset_y)/scale)`. -/
def canvas_to_image (scale ox oy cx cy : ℚ) : ℚ × ℚ :=
  ((cx - ox) / scale, (cy - oy) / scale)

/-- Model of the body of `_on_mouse_drag` (lines 801-827): given the drag
mode (`none` when no session is active), the snapshot rectangle captured
at mouse-down, the session origin `(ox, oy)`, the pointer `(x, y)` and
the current selection, produce the updated selection.  The resize branch
mirrors the four substring tests `'w' in h`, `'e' in h`, `'n' in h`,
`'s' in h` of the source. -/
def on_mouse_drag (mode : Option String) (snap : SelRect) (ox oy x y : ℚ)
    (cur : SelRect) : SelRect :=
  match mode with
  | none => cur
  | some m =>
    if m = "new" then { cur with x1 := x, y1 := y }
    else if m = "move" then
      let dx := x - ox
      let dy := y - oy
      ⟨snap.x0 + dx, snap.y0 + dy, snap.x1 + dx, snap.y1 + dy⟩
    else
      let dx := x - ox
      let dy := y - oy
      ⟨if pyIn 'w' m then snap.x0 + dx else snap.x0,
       if pyIn 'n' m then snap.y0 + dy else snap.y0,
       if pyIn 'e' m then snap.x1 + dx else snap.x1,
       if pyIn 's' m then snap.y1 + dy else snap.y1⟩

/-- Model of the pixel-rectangle clamping in `_save_crop` (lines 871-874):
`left = max(0, int(min(ix0, ix1)))`, `top = max(0, int(min(iy0, iy1)))`,
`right = min(imgW, int(max(ix0, ix1)))`,
`bottom = min(imgH, int(max(iy0, iy1)))`, as `(left, top, right, bottom)`. -/
def crop_rect (imgW imgH : ℕ) (ix0 iy0 ix1 iy1 : ℚ) : ℤ × ℤ × ℤ × ℤ :=
  (max 0 (truncQ (min ix0 ix1)), max 0 (truncQ (min iy0 iy1)),
   min (imgW : ℤ) (truncQ (max ix0 ix1)), min (imgH : ℤ) (truncQ (max iy0 iy1)))

/-- Truncation toward zero agrees with the floor once clamped below by 0. -/
lemma max_zero_truncQ (q : ℚ) : max 0 (truncQ q) = max 0 ⌊q⌋ := by
  unfold truncQ
  split
  · rfl
  · rename_i h
    push_neg at h
    rw [max_eq_left (Int.ceil_le.2 (by exact_mod_cast h.le)),
        max_eq_left (Int.floor_nonpos h.le)]

/-- Truncation toward zero is the floor on nonnegative inputs. -/
lemma truncQ_of_nonneg {q : ℚ} (h : 0 ≤ q) : truncQ q = ⌊q⌋ := if_pos h

/-- C1 (amended): the exported rectangle satisfies
`left = max(0, ⌊min(ix0,ix1)⌋)` and `top = max(0, ⌊min(iy0,iy1)⌋)`, and —
for the nonnegative coordinates relevant here — `right` and `bottom` are
`min(imageWidth, ⌊max(ix0,ix1)⌋)` and `min(imageHeight, ⌊max(iy0,iy1)⌋)`:
the right and bottom edges are truncated toward zero (rounded DOWN for
in-range values), not rounded up with `ceil`. -/
theorem thm_C1 (imgW imgH : ℕ) (ix0 iy0 ix1 iy1 : ℚ) :
    (crop_rect imgW imgH ix0 iy0 ix1 iy1).1 = max 0 ⌊min ix0 ix1⌋ ∧
    (crop_rect imgW imgH ix0 iy0 ix1 iy1).2.1 = max 0 ⌊min iy0 iy1⌋ ∧
    (0 ≤ max ix0 ix1 →
      (crop_rect imgW imgH ix0 iy0 ix1 iy1).2.2.1 = min (imgW : ℤ) ⌊max ix0 ix1⌋) ∧
    (0 ≤ max iy0 iy1 →
      (crop_rect imgW imgH ix0 iy0 ix1 iy1).2.2.2 = min (imgH : ℤ) ⌊max iy0 iy1⌋) := by
  refine ⟨max_zero_truncQ _, max_zero_truncQ _, fun h => ?_, fun h => ?_⟩ <;>
    simp [crop_rect, truncQ_of_nonneg h]

/-- C1 witness: for the selection mapped to image coordinates
`(1,1)-(10.5,10.5)` in a 100×100 image, the exported rectangle is
`(1, 1, 10, 10)` as given by the amended formulas. -/
theorem wit_C1 :
    (0 : ℚ) ≤ max 1 (21 / 2) ∧
    (crop_rect 100 100 1 1 (21 / 2) (21 / 2)).2.2.1 =
      min ((100 : ℕ) : ℤ) ⌊max (1 : ℚ) (21 / 2)⌋ := by
  constructor
  · norm_num
  · exact (thm_C1 100 100 1 1 (21 / 2) (21 / 2)).2.2.1 (by norm_num)

/-- C1 counterexample: the claim as stated predicts
`right = min(100, ⌈10.5⌉) = 11`, but the code computes
`right = min(100, int(10.5)) = 10`. -/
theorem cex_C1 :
    (crop_rect 100 100 1 1 (21 / 2) (21 / 2)).2.2.1 = 10 ∧
    min ((100 : ℕ) : ℤ) ⌈max (1 : ℚ) (21 / 2)⌉ = 11 ∧
    (10 : ℤ) ≠ 11 := by
  refine ⟨?_, ?_, by decide⟩
  · have h1 : max (1 : ℚ) (21 / 2) = 21 / 2 := max_eq_right (by norm_num)
    have h2 : min (1 : ℚ) (21 / 2) = 1 := min_eq_left (by norm_num)
    simp only [crop_rect, h1, h2]
    rw [truncQ_of_nonneg (by norm_num)]
    norm_num
  · have h1 : max (1 : ℚ) (21 / 2) = 21 / 2 := max_eq_right (by norm_num)
    have h2 : (⌈(21 : ℚ) / 2⌉ : ℤ) = 11 := by
      rw [Int.ceil_eq_iff]
      norm_num
    rw [h1, h2]
    decide

/-- C2: composing the forward placement `screen = offset + image*scale`
with `_canvas_to_image` recovers the image point exactly, for every
positive image and canvas size. -/
theorem thm_C2 (imgW imgH cw ch : ℕ) (hiw : 0 < imgW) (hih : 0 < imgH)
    (hcw : 0 < cw) (hch : 0 < ch) (ix iy : ℚ) :
    canvas_to_image (render_fit imgW imgH cw ch).scale
      ((render_fit imgW imgH cw ch).offset_x : ℚ)
      ((render_fit imgW imgH cw ch).offset_y : ℚ)
      (((render_fit imgW imgH cw ch).offset_x : ℚ) + ix * (render_fit imgW imgH cw ch).scale)
      (((render_fit imgW imgH cw ch).offset_y : ℚ) + iy * (render_fit imgW imgH cw ch).scale)
      = (ix, iy) := by
  have hs : 0 < (render_fit imgW imgH cw ch).scale := by
    simp only [render_fit]
    exact lt_min
      (div_pos (by exact_mod_cast hcw) (by exact_mod_cast hiw))
      (div_pos (by exact_mod_cast hch) (by exact_mod_cast hih))
  unfold canvas_to_image
  rw [add_sub_cancel_left, add_sub_cancel_left,
      mul_div_cancel_right₀ _ hs.ne', mul_div_cancel_right₀ _ hs.ne']

/-- C2 witness: a 2×2 image on a 4×4 canvas, image point `(1, 1)`. -/
theorem wit_C2 :
    0 < 2 ∧
    canvas_to_image (render_fit 2 2 4 4).scale
      ((render_fit 2 2 4 4).offset_x : ℚ)
      ((render_fit 2 2 4 4).offset_y : ℚ)
      (((render_fit 2 2 4 4).offset_x : ℚ) + 1 * (render_fit 2 2 4 4).scale)
      (((render_fit 2 2 4 4).offset_y : ℚ) + 1 * (render_fit 2 2 4 4).scale)
      = (1, 1) :=
  ⟨by decide, thm_C2 2 2 4 4 (by decide) (by decide) (by decide) (by decide) 1 1⟩

/-- C5 (amended): the fit computes
`scale = min(canvasW/imageW, canvasH/imageH)`, but the code does NOT cap
the scale at 1: the scale is ≤ 1 exactly when at least one canvas
dimension does not exceed the corresponding image dimension; when the
canvas strictly exceeds the image in both dimensions the image is
upscaled (scale > 1). -/
theorem thm_C5 (imgW imgH cw ch : ℕ) (hiw : 0 < imgW) (hih : 0 < imgH) :
    (render_fit imgW imgH cw ch).scale = min ((cw : ℚ) / imgW) ((ch : ℚ) / imgH) ∧
    ((render_fit imgW imgH cw ch).scale ≤ 1 ↔ cw ≤ imgW ∨ ch ≤ imgH) := by
  refine ⟨rfl, ?_⟩
  have hw : (0 : ℚ) < imgW := by exact_mod_cast hiw
  have hh : (0 : ℚ) < imgH := by exact_mod_cast hih
  simp only [render_fit]
  rw [min_le_iff, div_le_one hw, div_le_one hh]
  constructor
  · rintro (h | h)
    · exact Or.inl (by exact_mod_cast h)
    · exact Or.inr (by exact_mod_cast h)
  · rintro (h | h)
    · exact Or.inl (by exact_mod_cast h)
    · exact Or.inr (by exact_mod_cast h)

/-- C5 witness: a 100×100 image on a 50×200 canvas has fit scale
`min(1/2, 2) = 1/2 ≤ 1`. -/
theorem wit_C5 :
    0 < 100 ∧
    ((render_fit 100 100 50 200).scale = min ((50 : ℚ) / 100) ((200 : ℚ) / 100) ∧
     ((render_fit 100 100 50 200).scale ≤ 1 ↔ 50 ≤ 100 ∨ 200 ≤ 100)) :=
  ⟨by decide, thm_C5 100 100 50 200 (by decide) (by decide)⟩

/-- C5 counterexample: a 100×100 image on an 800×600 canvas gets fit
scale 6, which exceeds 1 — the claim that the fit scale is at most 1 is
false on the code. -/
theorem cex_C5 :
    (render_fit 100 100 800 600).scale = 6 ∧
    ¬ (render_fit 100 100 800 600).scale ≤ 1 := by
  constructor <;> norm_num [render_fit]

/-- C6: in a resize drag, handle `e` moves only `x1` (by `dx`); `nw`
moves exactly `x0` and `y0`; `n` moves only `y0`; each corner handle
moves exactly two edges and each edge-midpoint handle moves exactly one,
every other edge keeping its snapshot value. -/
theorem thm_C6 (s : SelRect) (ox oy x y : ℚ) (cur : SelRect) :
    on_mouse_drag (some "e") s ox oy x y cur = ⟨s.x0, s.y0, s.x1 + (x - ox), s.y1⟩ ∧
    on_mouse_drag (some "nw") s ox oy x y cur = ⟨s.x0 + (x - ox), s.y0 + (y - oy), s.x1, s.y1⟩ ∧
    on_mouse_drag (some "n") s ox oy x y cur = ⟨s.x0, s.y0 + (y - oy), s.x1, s.y1⟩ ∧
    on_mouse_drag (some "ne") s ox oy x y cur = ⟨s.x0, s.y0 + (y - oy), s.x1 + (x - ox), s.y1⟩ ∧
    on_mouse_drag (some "w") s ox oy x y cur = ⟨s.x0 + (x - ox), s.y0, s.x1, s.y1⟩ ∧
    on_mouse_drag (some "sw") s ox oy x y cur = ⟨s.x0 + (x - ox), s.y0, s.x1, s.y1 + (y - oy)⟩ ∧
    on_mouse_drag (some "s") s ox oy x y cur = ⟨s.x0, s.y0, s.x1, s.y1 + (y - oy)⟩ ∧
    on_mouse_drag (some "se") s ox oy x y cur = ⟨s.x0, s.y0, s.x1 + (x - ox), s.y1 + (y - oy)⟩ := by
  refine ⟨?_, ?_, ?_, ?_, ?_, ?_, ?_, ?_⟩ <;> simp [on_mouse_drag, pyIn]

/-- C7: a move drag translates both corners by the pointer delta, so the
width `x1 - x0` and height `y1 - y0` are preserved exactly. -/
theorem thm_C7 (s : SelRect) (ox oy x y : ℚ) (cur : SelRect) :
    on_mouse_drag (some "move") s ox oy x y cur =
      ⟨s.x0 + (x - ox), s.y0 + (y - oy), s.x1 + (x - ox), s.y1 + (y - oy)⟩ ∧
    (on_mouse_drag (some "move") s ox oy x y cur).x1 -
      (on_mouse_drag (some "move") s ox oy x y cur).x0 = s.x1 - s.x0 ∧
    (on_mouse_drag (some "move") s ox oy x y cur).y1 -
      (on_mouse_drag (some "move") s ox oy x y cur).y0 = s.y1 - s.y0 := by
  refine ⟨?_, ?_, ?_⟩ <;> simp [on_mouse_drag]

/-- HIT_RADIUS constant of the source (line 23). -/
def HIT_RADIUS : ℚ := 10

/-- The Chebyshev box test of `_hit_handle` (line 708):
`abs(x - hx) <= HIT_RADIUS and abs(y - hy) <= HIT_RADIUS`. -/
def within_hit (x y hx hy : ℚ) : Bool :=
  decide (|x - hx| ≤ HIT_RADIUS) && decide (|y - hy| ≤ HIT_RADIUS)

/-- Model of `_handles` (lines 689-696): the eight handle points derived
from the normalized selection, in the dict insertion order
`nw, n, ne, w, e, sw, s, se` (Python dicts iterate in insertion order). -/
def handles (r : SelRect) : List (String × ℚ × ℚ) :=
  let nr := norm_sel r
  let mx := (nr.x0 + nr.x1) / 2
  let my := (nr.y0 + nr.y1) / 2
  [("nw", nr.x0, nr.y0), ("n", mx, nr.y0), ("ne", nr.x1, nr.y0),
   ("w", nr.x0, my), ("e", nr.x1, my),
   ("sw", nr.x0, nr.y1), ("s", mx, nr.y1), ("se", nr.x1, nr.y1)]

/-- Model of `_hit_handle` (lines 704-710): `none` without a selection,
otherwise the first handle (in `_handles` iteration order) whose point
passes the box test. -/
def hit_handle (x y : ℚ) (sel : Option SelRect) : Option String :=
  match sel with
  | none => none
  | some r =>
    ((handles r).find? fun h => within_hit x y h.2.1 h.2.2).map (fun h => h.1)

/-- C10: hit-testing scans the handles in the fixed priority order
`nw, n, ne, w, e, sw, s, se` and returns the first one whose point lies
within `HIT_RADIUS` of the query in both axes (Chebyshev box test), or
`none` when no handle qualifies — so the result is deterministic, and on
the tiny selection `(0,0)-(16,0)` the query `(12,0)` returns the
edge-midpoint `n` even though the later corner `ne` also qualifies. -/
theorem thm_C10 (r : SelRect) (x y : ℚ) :
    (hit_handle x y (some r) =
      (let lx := min r.x0 r.x1
       let ty := min r.y0 r.y1
       let rx := max r.x0 r.x1
       let b := max r.y0 r.y1
       let mx := (lx + rx) / 2
       let my := (ty + b) / 2
       if within_hit x y lx ty then some "nw"
       else if within_hit x y mx ty then some "n"
       else if within_hit x y rx ty then some "ne"
       else if within_hit x y lx my then some "w"
       else if within_hit x y rx my then some "e"
       else if within_hit x y lx b then some "sw"
       else if within_hit x y mx b then some "s"
       else if within_hit x y rx b then some "se"
       else none)) ∧
    hit_handle 12 0 (some ⟨0, 0, 16, 0⟩) = some "n" ∧
    within_hit 12 0 16 0 = true := by
  refine ⟨?_,
    by norm_num [hit_handle, handles, norm_sel, List.find?, within_hit, HIT_RADIUS],
    by norm_num [within_hit, HIT_RADIUS]⟩
  simp only [hit_handle, handles, norm_sel, List.find?]
  split_ifs with h1 h2 h3 h4 h5 h6 h7 h8 <;>
    simp_all [List.find?]

/-- Model of `os.path.basename` for POSIX paths: the part of the path
after the last `/`. -/
def basename (p : String) : String :=
  String.mk ((p.data.reverse.takeWhile (fun c => c ≠ '/')).reverse)

/-- Model of `os.path.splitext` applied to a basename: split at the last
dot, except that leading dots alone never start an extension (CPython's
`splitext`: `".bashrc"` has no extension). -/
def splitext (name : String) : String × String :=
  let cs := name.data
  match (cs.reverse.findIdx? (fun c => c == '.')).map (fun j => cs.length - 1 - j) with
  | none => (name, "")
  | some i =>
    if (cs.take i).all (fun c => c == '.') then (name, "")
    else (String.mk (cs.take i), String.mk (cs.drop i))

/-- Model of Python `str.lower` (exact for the ASCII extension strings
involved here). -/
def py_lower (s : String) : String := String.mk (s.data.map Char.toLower)

/-- The writable-extension tuple hard-coded in `_save_crop` (line 885):
`('.jpg', '.jpeg', '.png', '.bmp', '.tiff')`. -/
def writable_exts : List String := [".jpg", ".jpeg", ".png", ".bmp", ".tiff"]

/-- Model of the output-extension choice in `_save_crop` (lines 882-885):
an empty extension defaults to `.png`; an extension whose lowercase form
is not in the writable tuple falls back to `.png`; otherwise the source
extension is kept (in its original case). -/
def output_ext (name : String) : String :=
  let ext0 := (splitext name).2
  let ext1 := if ext0 = "" then ".png" else ext0
  if writable_exts.contains (py_lower ext1) then ext1 else ".png"

/-- Restatement of C9's extension rule in the spec's own words, to be
compared with `output_ext` as read off the source: no extension gives
`.png` directly; otherwise keep the extension exactly when its lowercase
form is writable, else `.png`. -/
def output_ext_spec (name : String) : String :=
  let e := (splitext name).2
  if e = "" then ".png"
  else if writable_exts.contains (py_lower e) then e
  else ".png"

/-- C9: the output extension equals the spec's case analysis (no source
extension → `.png`; unwritable extension → `.png`; otherwise the source
extension is kept), and its lowercase form always lies in the writable
set — membership is up to lowercasing because the source keeps the
original case (e.g. `.JPG`). -/
theorem thm_C9 (name : String) :
    output_ext name = output_ext_spec name ∧
    writable_exts.contains (py_lower (output_ext name)) = true := by
  simp only [output_ext, output_ext_spec]
  split_ifs with h1 h2 h3
  · simp_all
  · exact absurd (by decide) h2
  · simp_all
  · exact ⟨rfl, by decide⟩

/-- Field lookup for the naming pattern: the recognized placeholder
names are `base`, `n` and `ext` (the keyword arguments of
`pattern.format(base=..., n=..., ext=...)` at line 899); `n` is
substituted as its decimal string.  A conversion (`!r`) or format spec
(`:...`) after the name is accepted and ignored; an unknown or empty
field name is a formatting error (`none`), as `str.format` raises there. -/
def lookup_field (f : List Char) (base : String) (n : ℕ) (ext : String) :
    Option (List Char) :=
  let plain := f.takeWhile (fun c => !(c == ':' || c == '!'))
  if plain = "base".data then some base.data
  else if plain = "n".data then some (toString n).data
  else if plain = "ext".data then some ext.data
  else none

/-- Placeholder-substitution core of Python `str.format` as used on the
naming pattern: scans the characters, substitutes `\x7bname\x7d` fields via
`lookup_field`, honours the `\x7b\x7b` and `\x7d\x7d` escapes, and fails
(`none`) on an unknown field, an unterminated field, or a stray closing
brace — the cases where `str.format` raises and `_save_crop` falls back.
The first argument is `some acc` while inside a field (accumulated name
in reverse), `none` outside. -/
def py_format_core (base : String) (n : ℕ) (ext : String) :
    Option (List Char) → List Char → Option (List Char)
  | none, [] => some []
  | some _, [] => none
  | none, '\x7b' :: '\x7b' :: cs =>
    (py_format_core base n ext none cs).map (fun t => '\x7b' :: t)
  | none, '\x7b' :: cs => py_format_core base n ext (some []) cs
  | none, '\x7d' :: '\x7d' :: cs =>
    (py_format_core base n ext none cs).map (fun t => '\x7d' :: t)
  | none, '\x7d' :: _ => none
  | none, c :: cs => (py_format_core base n ext none cs).map (fun t => c :: t)
  | some acc, '\x7d' :: cs =>
    match lookup_field acc.reverse base n ext with
    | none => none
    | some v => (py_format_core base n ext none cs).map (fun t => v ++ t)
  | some acc, c :: cs => py_format_core base n ext (some (c :: acc)) cs

/-- Model of `pattern.format(base=base, n=count, ext=output_ext)`
(line 899): `none` models the exception path. -/
def py_format (pat base : String) (n : ℕ) (ext : String) : Option String :=
  (py_format_core base n ext none pat.data).map String.mk

/-- Model of the stem computation in `_save_crop` (lines 897-901): the
formatted pattern, falling back to the f-string
`f"\x7bbase\x7d_cr\x7bcount\x7d"` when formatting raises. -/
def out_stem (pat base : String) (n : ℕ) (ext : String) : String :=
  match py_format pat base n ext with
  | some s => s
  | none => base ++ "_cr" ++ toString n

/-- Sanity anchor: the default pattern formats normally (no fallback). -/
lemma py_format_default :
    py_format "\x7bbase\x7d_cr\x7bn\x7d" "photo" 2 ".jpg" = some "photo_cr2" := by
  decide

/-- C8: whenever the naming pattern cannot be formatted with the
placeholders `base`, `n`, `ext`, the stem computation does not fail but
falls back to the fixed default form `\x7bbase\x7d_cr\x7bn\x7d`. -/
theorem thm_C8 (pat base : String) (n : ℕ) (ext : String)
    (h : py_format pat base n ext = none) :
    out_stem pat base n ext = base ++ "_cr" ++ toString n := by
  simp [out_stem, h]

/-- C8 witness: the pattern `\x7bbogus\x7d` cannot be formatted, and the
first crop of `base.jpg` gets the fallback stem `base_cr1`. -/
theorem wit_C8 :
    py_format "\x7bbogus\x7d" "base" 1 ".jpg" = none ∧
    out_stem "\x7bbogus\x7d" "base" 1 ".jpg" = "base_cr1" :=
  ⟨by decide, (thm_C8 "\x7bbogus\x7d" "base" 1 ".jpg" (by decide)).trans (by decide)⟩

/-- The inputs of a single `_save_crop` call that come from the loaded
image, the viewport transform and the configuration: image size, the
transform, the source path, the naming pattern, whether the output
folder can be created (`os.makedirs` succeeding, line 889) and the
overwrite setting. -/
structure SaveEnv where
  imgW : ℕ
  imgH : ℕ
  scale : ℚ
  offset_x : ℚ
  offset_y : ℚ
  path : String
  pattern : String
  folder_ok : Bool
  overwrite : Bool

/-- The document state read and written by `_save_crop`: the current
selection (`sel_*`, `None` when absent) and the per-path crop counter
dict `crop_counter` (line 87), modelled as a total function defaulting
to 0 like `crop_counter.get(path, 0)`. -/
structure DocState where
  sel : Option SelRect
  counter : String → ℕ

/-- Outcome of one `_save_crop` call: the early returns (no selection,
selection too small, folder creation failure) or a saved crop with its
pixel rectangle, crop number and output file name. -/
inductive SaveResult where
  | noSelection
  | tooSmall
  | folderFailed
  | saved (left top right bottom : ℤ) (n : ℕ) (outName : String)
deriving DecidableEq, Repr

/-- The clamped pixel rectangle computed by `_save_crop` (lines 867-874):
normalize the selection, map both corners through `_canvas_to_image`,
then clamp with `crop_rect`. -/
def save_rect (env : SaveEnv) (r : SelRect) : ℤ × ℤ × ℤ × ℤ :=
  let nr := norm_sel r
  let p0 := canvas_to_image env.scale env.offset_x env.offset_y nr.x0 nr.y0
  let p1 := canvas_to_image env.scale env.offset_x env.offset_y nr.x1 nr.y1
  crop_rect env.imgW env.imgH p0.1 p0.2 p1.1 p1.2

/-- The degenerate-selection test of `_save_crop` (line 876):
`right <= left or bottom <= top` on the clamped rectangle. -/
def collapsed (env : SaveEnv) (r : SelRect) : Bool :=
  decide ((save_rect env r).2.2.1 ≤ (save_rect env r).1) ||
  decide ((save_rect env r).2.2.2 ≤ (save_rect env r).2.1)

/-- Model of `_save_crop` (lines 859-927) on the export-relevant state.
In source order: bail out without a selection; compute and clamp the
pixel rectangle, failing with `tooSmall` (and touching nothing) when it
collapsed; compute base name and output extension; fail with
`folderFailed` (still touching nothing) when the output folder cannot be
created; only then increment the per-path counter, format the stem and
save — the overwrite path additionally clears the selection after
saving. -/
def save_crop (env : SaveEnv) (st : DocState) : SaveResult × DocState :=
  match st.sel with
  | none => (.noSelection, st)
  | some r =>
    if collapsed env r then (.tooSmall, st)
    else
      let bn := basename env.path
      let base := (splitext bn).1
      let oext := output_ext bn
      if env.folder_ok then
        let count := st.counter env.path + 1
        let counter' := fun p => if p = env.path then count else st.counter p
        let name := out_stem env.pattern base count oext ++ oext
        if env.overwrite then
          (.saved (save_rect env r).1 (save_rect env r).2.1 (save_rect env r).2.2.1
            (save_rect env r).2.2.2 count name, ⟨none, counter'⟩)
        else
          (.saved (save_rect env r).1 (save_rect env r).2.1 (save_rect env r).2.2.1
            (save_rect env r).2.2.2 count name, ⟨some r, counter'⟩)
      else (.folderFailed, st)

/-- A collapsed selection gives `tooSmall` and leaves the state alone. -/
lemma save_crop_of_collapsed (env : SaveEnv) (cnt : String → ℕ) (r : SelRect)
    (hc : collapsed env r = true) :
    save_crop env ⟨some r, cnt⟩ = (.tooSmall, ⟨some r, cnt⟩) := by
  simp [save_crop, hc]

/-- A folder-creation failure gives `folderFailed` and leaves the state
alone (in particular the counter is not incremented). -/
lemma save_crop_of_folder (env : SaveEnv) (cnt : String → ℕ) (r : SelRect)
    (hc : collapsed env r = false) (hf : env.folder_ok = false) :
    save_crop env ⟨some r, cnt⟩ = (.folderFailed, ⟨some r, cnt⟩) := by
  simp [save_crop, hc, hf]

/-- A successful save produces crop number `counter(path) + 1` and bumps
exactly that path's counter. -/
lemma save_crop_of_ok (env : SaveEnv) (cnt : String → ℕ) (r : SelRect)
    (hc : collapsed env r = false) (hf : env.folder_ok = true) :
    save_crop env ⟨some r, cnt⟩ =
      (.saved (save_rect env r).1 (save_rect env r).2.1 (save_rect env r).2.2.1
        (save_rect env r).2.2.2 (cnt env.path + 1)
        (out_stem env.pattern (splitext (basename env.path)).1 (cnt env.path + 1)
          (output_ext (basename env.path)) ++ output_ext (basename env.path)),
       ⟨if env.overwrite then none else some r,
        fun p => if p = env.path then cnt env.path + 1 else cnt p⟩) := by
  simp only [save_crop]
  rw [if_neg (by simp [hc]), if_pos hf]
  by_cases ho : env.overwrite <;> simp [ho]

/-- C4: with a selection present, `_save_crop` fails with the
selection-too-small error exactly when the clamped rectangle satisfies
`right ≤ left` or `bottom ≤ top`, and on that failure neither the
selection nor any counter is mutated. -/
theorem thm_C4 (env : SaveEnv) (st : DocState) (r : SelRect) (h : st.sel = some r) :
    ((save_crop env st).1 = .tooSmall ↔
      ((save_rect env r).2.2.1 ≤ (save_rect env r).1 ∨
       (save_rect env r).2.2.2 ≤ (save_rect env r).2.1)) ∧
    ((save_crop env st).1 = .tooSmall → (save_crop env st).2 = st) := by
  obtain ⟨sel, cnt⟩ := st
  have hs : sel = some r := h
  subst hs
  by_cases hc : collapsed env r = true
  · rw [save_crop_of_collapsed env cnt r hc]
    refine ⟨⟨fun _ => ?_, fun _ => rfl⟩, fun _ => rfl⟩
    have := hc
    simp only [collapsed, Bool.or_eq_true, decide_eq_true_eq] at this
    exact this
  · have hc' : collapsed env r = false := by
      revert hc
      cases collapsed env r <;> simp
    have hnot : ¬ ((save_rect env r).2.2.1 ≤ (save_rect env r).1 ∨
        (save_rect env r).2.2.2 ≤ (save_rect env r).2.1) := by
      have h2 := hc'
      simp only [collapsed, Bool.or_eq_false_iff, decide_eq_false_iff_not] at h2
      rw [not_or]
      exact h2
    constructor
    · constructor
      · intro habs
        exfalso
        by_cases hf : env.folder_ok = true
        · rw [save_crop_of_ok env cnt r hc' hf] at habs
          exact SaveResult.noConfusion habs
        · have hf' : env.folder_ok = false := by
            revert hf
            cases env.folder_ok <;> simp
          rw [save_crop_of_folder env cnt r hc' hf'] at habs
          exact SaveResult.noConfusion habs
      · intro hcond
        exact absurd hcond hnot
    · intro habs
      exfalso
      by_cases hf : env.folder_ok = true
      · rw [save_crop_of_ok env cnt r hc' hf] at habs
        exact SaveResult.noConfusion habs
      · have hf' : env.folder_ok = false := by
          revert hf
          cases env.folder_ok <;> simp
        rw [save_crop_of_folder env cnt r hc' hf'] at habs
        exact SaveResult.noConfusion habs

/-- Concrete export environment for the C4 witness: a 100×100 image
rendered at scale 1 with no offsets, default pattern, working folder,
no overwrite. -/
def env0 : SaveEnv :=
  { imgW := 100, imgH := 100, scale := 1, offset_x := 0, offset_y := 0,
    path := "img.png", pattern := "\x7bbase\x7d_cr\x7bn\x7d",
    folder_ok := true, overwrite := false }

/-- Concrete document state for the C4 witness: the degenerate selection
`(50,50)-(51,50)` and fresh counters. -/
def st0 : DocState := ⟨some ⟨50, 50, 51, 50⟩, fun _ => 0⟩

/-- C4 witness: the selection `(50,50)-(51,50)` (zero height after
clamping) yields the too-small error and leaves the state untouched. -/
theorem wit_C4 :
    (save_crop env0 st0).1 = .tooSmall ∧ (save_crop env0 st0).2 = st0 := by
  have h := thm_C4 env0 st0 ⟨50, 50, 51, 50⟩ rfl
  have hcol : (save_rect env0 ⟨50, 50, 51, 50⟩).2.2.2 ≤ (save_rect env0 ⟨50, 50, 51, 50⟩).2.1 := by
    norm_num [save_rect, norm_sel, canvas_to_image, crop_rect, truncQ, env0]
  exact ⟨h.1.mpr (Or.inr hcol), h.2 (h.1.mpr (Or.inr hcol))⟩

/-- One export attempt in a run: the environment of the call (image,
transform, settings may all change between attempts) together with the
selection the user drew for it. -/
structure Attempt where
  env : SaveEnv
  sel : SelRect

/-- An attempt succeeds (produces a saved crop) exactly when its clamped
rectangle has not collapsed and the output folder can be created; this
is independent of the counter state. -/
def attempt_ok (a : Attempt) : Bool :=
  !collapsed a.env a.sel && a.env.folder_ok

/-- Install a freshly drawn selection, leaving the counters alone. -/
def set_selection (st : DocState) (r : SelRect) : DocState := ⟨some r, st.counter⟩

/-- Draw the attempt's selection and run `_save_crop` once. -/
def run_step (a : Attempt) (st : DocState) : SaveResult × DocState :=
  save_crop a.env (set_selection st a.sel)

/-- The crop numbers handed out to source path `p` over a run of
attempts, in order. -/
def crop_numbers (p : String) : List Attempt → DocState → List ℕ
  | [], _ => []
  | a :: rest, st =>
    (match (run_step a st).1 with
     | .saved _ _ _ _ n _ => if a.env.path = p then [n] else []
     | _ => []) ++ crop_numbers p rest (run_step a st).2

/-- The document state after a run of attempts. -/
def run_saves : List Attempt → DocState → DocState
  | [], st => st
  | a :: rest, st => run_saves rest (run_step a st).2

/-- A failing attempt (collapsed selection or folder failure) does not
produce a saved result and leaves the counters untouched. -/
lemma run_step_fail (a : Attempt) (st : DocState) (ha : attempt_ok a = false) :
    ((run_step a st).1 = .tooSmall ∨ (run_step a st).1 = .folderFailed) ∧
    (run_step a st).2.counter = st.counter := by
  cases hcol : collapsed a.env a.sel with
  | true =>
    have h := save_crop_of_collapsed a.env st.counter a.sel hcol
    rw [run_step, set_selection, h]
    exact ⟨Or.inl rfl, rfl⟩
  | false =>
    have hf : a.env.folder_ok = false := by
      have ha' := ha
      simp only [attempt_ok, hcol, Bool.not_false, Bool.true_and] at ha'
      exact ha'
    have h := save_crop_of_folder a.env st.counter a.sel hcol hf
    rw [run_step, set_selection, h]
    exact ⟨Or.inr rfl, rfl⟩

/-- A successful attempt produces the saved result with crop number
`counter(path) + 1` and bumps exactly that path's counter. -/
lemma run_step_ok (a : Attempt) (st : DocState) (ha : attempt_ok a = true) :
    (run_step a st).1 =
      .saved (save_rect a.env a.sel).1 (save_rect a.env a.sel).2.1
        (save_rect a.env a.sel).2.2.1 (save_rect a.env a.sel).2.2.2
        (st.counter a.env.path + 1)
        (out_stem a.env.pattern (splitext (basename a.env.path)).1
          (st.counter a.env.path + 1) (output_ext (basename a.env.path)) ++
          output_ext (basename a.env.path)) ∧
    (run_step a st).2.counter =
      fun q => if q = a.env.path then st.counter a.env.path + 1 else st.counter q := by
  have ha' := ha
  simp only [attempt_ok, Bool.and_eq_true, Bool.not_eq_true'] at ha'
  have h := save_crop_of_ok a.env st.counter a.sel ha'.1 ha'.2
  rw [run_step, set_selection, h]
  exact ⟨rfl, rfl⟩

/-- C3: over any run of export attempts, the crop numbers handed out for
a fixed source path `p` are exactly the gap-free, repetition-free block
`counter(p)+1, counter(p)+2, ...`, one per successful attempt on `p`
(failed attempts — e.g. `SelectionTooSmall` — consume no number and
attempts on other paths do not interfere), and the final counter for `p`
is the initial one plus the number of successes: starting fresh
(`counter(p) = 0`) the numbers are `1..N`, and the counter never resets
during the run. -/
theorem thm_C3 (attempts : List Attempt) (p : String) (st : DocState) :
    crop_numbers p attempts st =
      List.range' (st.counter p + 1)
        ((attempts.filter (fun a => decide (a.env.path = p) && attempt_ok a)).length) ∧
    (run_saves attempts st).counter p =
      st.counter p +
        ((attempts.filter (fun a => decide (a.env.path = p) && attempt_ok a)).length) := by
  induction attempts generalizing st with
  | nil => simp [crop_numbers, run_saves]
  | cons a rest ih =>
    cases ha : attempt_ok a with
    | false =>
      obtain ⟨hres, hcnt⟩ := run_step_fail a st ha
      have hpred : (decide (a.env.path = p) && attempt_ok a) = false := by
        simp [ha]
      constructor
      · rw [crop_numbers]
        have hhead : (match (run_step a st).1 with
            | SaveResult.saved _ _ _ _ n _ => if a.env.path = p then [n] else []
            | _ => ([] : List ℕ)) = [] := by
          rcases hres with h1 | h1 <;> rw [h1]
        rw [hhead, List.nil_append, List.filter_cons_of_neg (by simp [hpred]),
            (ih (run_step a st).2).1, hcnt]
      · rw [run_saves, List.filter_cons_of_neg (by simp [hpred]),
            (ih (run_step a st).2).2, hcnt]
    | true =>
      obtain ⟨hres, hcnt⟩ := run_step_ok a st ha
      have hhead : (match (run_step a st).1 with
          | SaveResult.saved _ _ _ _ n _ => if a.env.path = p then [n] else []
          | _ => ([] : List ℕ)) =
          if a.env.path = p then [st.counter a.env.path + 1] else [] := by
        rw [hres]
      by_cases hp : a.env.path = p
      · subst hp
        have hcp : (run_step a st).2.counter a.env.path = st.counter a.env.path + 1 := by
          rw [hcnt]
          simp
        constructor
        · rw [crop_numbers, hhead, if_pos rfl,
              List.filter_cons_of_pos (by simp [ha]),
              (ih (run_step a st).2).1, hcp, List.length_cons, List.range'_succ,
              List.singleton_append]
        · rw [run_saves, List.filter_cons_of_pos (by simp [ha]),
              (ih (run_step a st).2).2, hcp, List.length_cons]
          omega
      · have hcp : (run_step a st).2.counter p = st.counter p := by
          rw [hcnt]
          simp only
          rw [if_neg (fun hq => hp hq.symm)]
        constructor
        · rw [crop_numbers, hhead, if_neg hp,
              List.filter_cons_of_neg (by simp [hp]),
              (ih (run_step a st).2).1, hcp, List.nil_append]
        · rw [run_saves, List.filter_cons_of_neg (by simp [hp]),
              (ih (run_step a st).2).2, hcp]

end ImageCropper
